import Mathlib

/-!
Verification of the batch estimation pipeline of the `finder` repository.

The Python sources are shallowly embedded below:
  * `src/main.py` — `validate_employee_count`, `review_employee_count`,
    `call_openai_with_retry` (tenacity retry policy), `process_company_batch`,
    and the company-column parsing of `process_file`;
  * `src/api/index.py` — `extract_number`, `search_web_info` and the
    per-row loop of `process_file`;
  * `src/backend/app.py` — `get_cache_key`, `get_employee_count` and
    `get_employee_count_without_cache` with a Redis model.

External services (OpenAI / Anthropic / web search) are modelled as oracle
parameters giving the textual response of each call; Redis is modelled as an
explicit key-value store with expiry timestamps, `none` meaning the store is
unreachable.  All embedded functions are executable.
-/

set_option maxRecDepth 4096

/-! ### Python string primitives

Python `str.lower` / `str.upper` / `str.strip` / `str.replace(c, "")` on the
ASCII strings this pipeline handles, written over `String.data` so that they
reduce by kernel computation. -/

def pyLower (s : String) : String := String.mk (s.data.map Char.toLower)

def pyUpper (s : String) : String := String.mk (s.data.map Char.toUpper)

def pyStrip (s : String) : String :=
  String.mk (((s.data.dropWhile Char.isWhitespace).reverse.dropWhile Char.isWhitespace).reverse)

/-- Python `s.replace(c, "")` for a one-character pattern: drops every occurrence. -/
def removeChar (s : String) (c : Char) : String := String.mk (s.data.filter (fun a => a != c))

/-- Executable contiguous-subsequence test (Python's `needle in haystack`). -/
def segIn (needle : List Char) : List Char → Bool
  | [] => needle.isEmpty
  | c :: rest => needle.isPrefixOf (c :: rest) || segIn needle rest

/-- Python `sub in hay` on strings. -/
def strContains (hay sub : String) : Bool := segIn sub.data hay.data

theorem segIn_iff (needle : List Char) : ∀ hay : List Char, segIn needle hay = true ↔ needle <:+: hay := by
  intro hay
  induction hay with
  | nil =>
    simp [segIn, List.isEmpty_iff]
  | cons c rest ih =>
    simp only [segIn, Bool.or_eq_true, List.isPrefixOf_iff_prefix, ih, List.infix_cons_iff]

theorem strContains_iff {hay sub : String} : strContains hay sub = true ↔ sub.data <:+: hay.data :=
  segIn_iff sub.data hay.data

/-- Digit-string value (used for Python `int(...)` on digit strings). -/
def natOfDigits (l : List Char) : Nat := l.foldl (fun a c => a * 10 + (c.toNat - 48)) 0

/-- Maximal runs of characters satisfying `p`, in order of appearance. -/
def runsAux (p : Char → Bool) : List Char → List Char → List (List Char)
  | [], acc => if acc.isEmpty then [] else [acc.reverse]
  | c :: cs, acc =>
    if p c then runsAux p cs (c :: acc)
    else if acc.isEmpty then runsAux p cs []
    else acc.reverse :: runsAux p cs []

def runsOf (p : Char → Bool) (s : String) : List (List Char) := runsAux p s.data []

/-- Regex `\w`: the word characters of Python's `re` on ASCII text. -/
def isWordChar (c : Char) : Bool := c.isAlphanum || c == '_'

/-- Python `re.findall(r'\d+', s)`: the maximal digit runs of `s`. -/
def digitRuns (s : String) : List (List Char) := runsOf Char.isDigit s

/-- Python `int(s)` success test: optional sign followed by one or more digits
(`s` is already stripped at every call site). -/
def pyIsIntL : List Char → Bool
  | [] => false
  | c :: cs =>
    if c == '-' || c == '+' then !cs.isEmpty && cs.all Char.isDigit
    else (c :: cs).all Char.isDigit

def pyIsInt (s : String) : Bool := pyIsIntL s.data

/-! ### `src/api/index.py` — `extract_number` (lines 61-66)

`re.findall(r'\b\d{2,6}\b', text)` matches exactly the maximal word-character
runs of the text that consist of 2 to 6 digits (the `\b` anchors forbid any
adjacent word character, so a digit run inside or next to letters, a lone
digit and a run of 7+ digits never match); `findall` returns them in order
and the code takes the first, then strips `','` from it (a no-op, matches
hold no comma). -/

def extract_number (text : String) : Option String :=
  ((runsOf isWordChar text).find? fun t =>
      decide (2 ≤ t.length) && decide (t.length ≤ 6) && t.all Char.isDigit).map
    (fun t => removeChar (String.mk t) ',')

/-! ### `src/main.py` — `validate_employee_count` (lines 366-390) -/

/-- A Python value passed as `count`: `None`, an `int`, or a `str`.
(The `float` case of line 371 behaves as the `int` case after truncation.) -/
inductive PyCount where
  | none
  | intv (n : Int)
  | strv (s : String)
deriving DecidableEq, Repr

/-- `validate_employee_count`: for a string, keep only digits and dots; if that
parses as a float, truncate it (`int(float(cleaned))`, exact below 2^53 — the
IEEE rounding of absurdly long digit strings is not modelled); otherwise fall
back to the first maximal digit run of the original string. -/
def validate_employee_count : PyCount → Option Int
  | .none => Option.none
  | .intv n => some n
  | .strv s =>
    let cleaned := s.data.filter (fun c => c.isDigit || c == '.')
    if cleaned.isEmpty then Option.none
    else if (cleaned.count '.') ≤ 1 && cleaned.any Char.isDigit then
      -- `float(cleaned)` succeeds; `int` truncates to the part before the dot
      some (Int.ofNat (natOfDigits (cleaned.takeWhile (fun c => c != '.'))))
    else
      match digitRuns s with
      | [] => Option.none
      | r :: _ => some (Int.ofNat (natOfDigits r))

/-- Modelled from the spec: the extraction rule §4.3 step 3 claims — "take the
first run of digits (ignoring thousands separators)".  Commas are removed
first so that a separator does not break a run, then the first maximal digit
run is taken.  Used only to compare the spec's rule with the code's. -/
def spec_first_digit_run (s : String) : Option Nat :=
  match digitRuns (removeChar s ',') with
  | [] => Option.none
  | r :: _ => some (natOfDigits r)

/-! ### `src/main.py` — `review_employee_count` (lines 217-364)

The result dicts of the first pass and of the review.  `employee_count` is
`Option Int`: the falsy check of line 278 treats both `None` and `0` as "no
count".  (Counts of non-numeric JSON type would raise a `TypeError` inside the
`try` and return the input unchanged, like every other exception path; they
are outside this model.) -/

structure InitResult where
  employee_count : Option Int
  confidence : String
  sources : List String
  explanation : String
deriving DecidableEq, Repr

structure ReviewResult where
  employee_count : Option Int
  confidence : String
  sources : List String
  explanation : String
  was_adjusted : Bool
deriving DecidableEq, Repr

/-- Rolling state of `(count, confidence, sources, explanation)` through the
three adjustment blocks of the function. -/
structure RSt where
  count : Int
  confidence : String
  sources : List String
  explanation : String
deriving DecidableEq, Repr

/-- Python `str(l)` for a list of plain strings: `['a', 'b']` (`repr` escaping
of quote characters inside an element is not modelled). -/
def pyQuoteChar : Char := Char.ofNat 39

def pyQuote (s : String) : String := String.singleton pyQuoteChar ++ s ++ String.singleton pyQuoteChar

def pyStrRest : List String → String
  | [] => ""
  | s :: rest => ", " ++ pyQuote s ++ pyStrRest rest

def pyStrOfList : List String → String
  | [] => "[]"
  | s :: rest => "[" ++ pyQuote s ++ pyStrRest rest ++ "]"

/-- Line 359: `"ADJUSTED" in sources or "LOCATION" in str(sources) or "MARKET" in str(sources)`. -/
def wasAdjusted (sources : List String) : Bool :=
  sources.contains "ADJUSTED" || strContains (pyStrOfList sources) "LOCATION" ||
    strContains (pyStrOfList sources) "MARKET"

/-- The audit markers the reviewer appends (as the `was_adjusted` test sees them). -/
def isMarker (m : String) : Bool :=
  (m == "ADJUSTED") || strContains m "LOCATION" || strContains m "MARKET"

/-- Python `min(iterable, key=...)`: first element with minimal key. -/
def pyMinBy {α : Type} (key : α → Nat) : List α → Option α
  | [] => none
  | x :: xs => some (xs.foldl (fun b a => if key a < key b then a else b) x)

def mnc_companies : List String := ["google", "meta", "facebook", "amazon", "microsoft", "apple"]

def regional_tech : List String := ["grab", "shopee", "lazada", "sea", "gojek", "tokopedia", "goto"]

/-- The `country_patterns["malaysia"]` ranges, keyed by company type, in dict
insertion order. -/
def mnc_ranges : List (String × Int × Int) := [("small", 100, 500), ("medium", 500, 1000), ("large", 1000, 2000)]

def regional_ranges : List (String × Int × Int) := [("small", 500, 1000), ("medium", 1000, 2000), ("large", 2000, 5000)]

def local_ranges : List (String × Int × Int) := [("small", 50, 200), ("medium", 200, 1000), ("large", 1000, 3000)]

def mnc_locations : List (String × String) := [("klcc", "medium"), ("bangsar", "medium"), ("cyberjaya", "large"), ("penang", "medium")]

def home_markets : List (String × String) :=
  [("grab", "singapore"), ("shopee", "singapore"), ("lazada", "singapore"), ("sea", "singapore"),
   ("gojek", "indonesia"), ("tokopedia", "indonesia"), ("goto", "indonesia")]

def rangesFor (ctype : String) : List (String × Int × Int) :=
  if ctype == "mnc" then mnc_ranges else if ctype == "regional" then regional_ranges else local_ranges

/-- Lines 221-225: `[company.lower(), company.lower().replace(" ", ""), company.lower().replace(".", "")]`. -/
def company_variations (company : String) : List String :=
  [pyLower company, removeChar (pyLower company) ' ', removeChar (pyLower company) '.']

/-- Lines 227-235. -/
def company_type_of (company : String) : String :=
  if mnc_companies.any (fun n => (company_variations company).contains n) then "mnc"
  else if regional_tech.any (fun n => (company_variations company).contains n) then "regional"
  else "local"

/-- `ranges.get(k, ...)` / `ranges[k]` on the category dict.  The `(0, 0)`
default is line 317's; the two bare `ranges[...]` subscripts (lines 341, 347)
are only reached with the `regional_ranges` table, where the keys exist. -/
def lookupRange (ranges : List (String × Int × Int)) (k : String) : Int × Int :=
  match ranges.find? (fun r => r.1 == k) with
  | some r => r.2
  | none => (0, 0)

/-- Lines 286-310: validate `count` against the ranges; if it falls in no range
and is below half the closest range's minimum or above 1.5 times its maximum
(`2*count < lo` / `2*count > 3*hi` — the table bounds are even, so the float
comparisons of the source are exact), replace it by the range midpoint, drop
confidence to LOW and append the `ADJUSTED` marker. -/
def stageA (country ctype : String) (ranges : List (String × Int × Int)) (st : RSt) : RSt :=
  let is_valid := ranges.any (fun r => decide (r.2.1 ≤ st.count ∧ st.count ≤ r.2.2))
  if is_valid then st
  else
    match pyMinBy (fun r => min (st.count - r.2.1).natAbs (st.count - r.2.2).natAbs) ranges with
    | none => st  -- empty ranges: never reached (the caller returns on ValueError first)
    | some r =>
      if 2 * st.count < r.2.1 ∨ 2 * st.count > 3 * r.2.2 then
        let adj := (r.2.1 + r.2.2) / 2
        { count := adj, confidence := "LOW",
          sources := st.sources ++ ["ADJUSTED"],
          explanation := st.explanation ++ "\nAdjusted from " ++ toString st.count ++ " to " ++
            toString adj ++ " based on " ++ country ++ " " ++ ctype ++ " company patterns." }
      else st

/-- Lines 313-323, one location of the MNC location loop. -/
def stageBStep (ranges : List (String × Int × Int)) (webLower : String) (st : RSt)
    (locEntry : String × String) : RSt :=
  if strContains webLower locEntry.1 then
    let er := lookupRange ranges locEntry.2
    if 2 * st.count < er.1 ∨ 2 * st.count > 3 * er.2 then
      let adj := (er.1 + er.2) / 2
      { count := adj, confidence := "MEDIUM",
        sources := st.sources ++ ["LOCATION_" ++ pyUpper locEntry.1],
        explanation := st.explanation ++ "\nAdjusted to " ++ toString adj ++ " based on " ++
          locEntry.1 ++ " office patterns." }
    else st
  else st

def stageB (ranges : List (String × Int × Int)) (webLower : String)
    (locations : List (String × String)) (st : RSt) : RSt :=
  locations.foldl (stageBStep ranges webLower) st

/-- `home_markets[company_lower]` (line 340); the `""` default is never
reached, the key was just found. -/
def homeMarketOf (cl : String) : String :=
  match home_markets.find? (fun p => p.1 == cl) with
  | some p => p.2
  | none => ""

/-- Lines 326-352: regional companies, home/foreign market adjustment. -/
def stageC (country : String) (variations : List String) (ranges : List (String × Int × Int))
    (st : RSt) : RSt :=
  match variations.find? (fun v => (home_markets.find? (fun p => p.1 == v)).isSome) with
  | none => st
  | some cl =>
    let is_home := homeMarketOf cl == pyLower country
    let lg := lookupRange ranges "large"
    let md := lookupRange ranges "medium"
    if is_home && decide (st.count < lg.1) then
      let adj := (lg.1 + lg.2) / 2
      { count := adj, confidence := "MEDIUM", sources := st.sources ++ ["HOME_MARKET"],
        explanation := st.explanation ++ "\nAdjusted up to " ++ toString adj ++ " as " ++
          country ++ " is the home market." }
    else if !is_home && decide (st.count > md.2) then
      let adj := (md.1 + md.2) / 2
      { count := adj, confidence := "MEDIUM", sources := st.sources ++ ["FOREIGN_MARKET"],
        explanation := st.explanation ++ "\nAdjusted down to " ++ toString adj ++ " as " ++
          country ++ " is not the home market." }
    else st

def afterA (company country : String) (st : RSt) : RSt :=
  stageA country (company_type_of company) (rangesFor (company_type_of company)) st

def afterB (company : String) (web_info : String) (st : RSt) : RSt :=
  if company_type_of company == "mnc" then
    stageB (rangesFor (company_type_of company)) (pyLower web_info) mnc_locations st
  else st

def afterC (company country : String) (st : RSt) : RSt :=
  if company_type_of company == "regional" then
    stageC country (company_variations company) (rangesFor (company_type_of company)) st
  else st

def reviewCore (company country : String) (st : RSt) (web_info : String) : RSt :=
  afterC company country (afterB company web_info (afterA company country st))

/-- Exception paths and the no-count path return the input dict unchanged;
the caller reads its missing `was_adjusted` key as `False`. -/
def unreviewed (ir : InitResult) : ReviewResult :=
  ⟨ir.employee_count, ir.confidence, ir.sources, ir.explanation, false⟩

/-- `review_employee_count`.  `country_patterns` holds only a `"malaysia"`
entry, so for every other country the ranges dict is empty, `min()` over it
raises `ValueError` inside the `try`, and the handler returns the input
unchanged (line 364). -/
def review_employee_count (company country : String) (ir : InitResult) (web_info : String) :
    ReviewResult :=
  match ir.employee_count with
  | none => unreviewed ir
  | some c =>
    if c = 0 then unreviewed ir
    else if pyLower country = "malaysia" then
      let st3 := reviewCore company country ⟨c, ir.confidence, ir.sources, ir.explanation⟩ web_info
      ⟨some st3.count, st3.confidence, st3.sources, pyStrip st3.explanation, wasAdjusted st3.sources⟩
    else unreviewed ir

/-! ### `src/main.py` — `call_openai_with_retry` (lines 590-614)

The tenacity decorator: `retry=retry_if_exception_type(RateLimitError)`,
`wait=wait_exponential(multiplier=1, min=4, max=10)`, `stop=stop_after_attempt(3)`.
The call at attempt `n` is an oracle value: a normal response, a
`RateLimitError` (transient), or any other exception (permanent — the
`except Exception` arm of line 612 re-raises, and `retry_if_exception_type`
does not retry it).  The run returns the final outcome, the number of calls
made and the list of backoff waits slept. -/

inductive CallOutcome where
  | ok (resp : String)
  | rateLimited
  | failed (msg : String)
deriving DecidableEq, Repr

/-- Tenacity `wait_exponential(multiplier, min, max)` after completed attempt `n`:
`multiplier * 2^n` clamped into `[min, max]`. -/
def wait_exponential (multiplier minW maxW n : Nat) : Nat :=
  min maxW (max minW (multiplier * 2 ^ n))

/-- One tenacity run with `remaining` attempts still allowed, current attempt
number `attempt` (1-based). -/
def tenacityRun (oracle : Nat → CallOutcome) : Nat → Nat → Except String String × Nat × List Nat
  | 0, attempt => (.error "RetryError", attempt - 1, [])  -- never reached from the entry point
  | remaining + 1, attempt =>
    match oracle attempt with
    | .ok r => (.ok r, attempt, [])
    | .failed m => (.error m, attempt, [])  -- non-RateLimitError: raised immediately, no retry
    | .rateLimited =>
      if remaining = 0 then (.error "RateLimitError", attempt, [])  -- stop_after_attempt reached
      else
        let rec_ := tenacityRun oracle remaining (attempt + 1)
        (rec_.1, rec_.2.1, wait_exponential 1 4 10 attempt :: rec_.2.2)

def call_openai_with_retry (oracle : Nat → CallOutcome) : Except String String × Nat × List Nat :=
  tenacityRun oracle 3 1

/-! ### `src/main.py` — `process_company_batch` (lines 392-544)

One company's resolution (web search + OpenAI estimate + validation + review)
is abstracted into an oracle: each company maps either to a success row or to
a raised exception message, together with the number of backend calls the
resolution performed.  The loop body appends exactly one row per company:
a result row on success (line 520) or an error row in the `except` handler
(line 539).  The Redis progress update of lines 530-535 runs only on the
success path; Redis itself is modelled as reliable shared state. -/

structure SuccessRow where
  employee_count : Int
  confidence : String
  sources : String
  explanation : String
  was_adjusted : Bool
deriving DecidableEq, Repr

inductive Resolution where
  | ok (row : SuccessRow) (backendCalls : Nat)
  | err (msg : String) (backendCalls : Nat)
deriving DecidableEq, Repr

inductive ResultRow where
  | ok (company : String) (row : SuccessRow)
  | err (company : String) (msg : String)
deriving DecidableEq, Repr

def rowCompany : ResultRow → String
  | .ok c _ => c
  | .err c _ => c

/-- The `batch:{batch_id}` hash plus the `results:{batch_id}` key. -/
structure BatchState where
  processed : Nat
  status : String
  storedResults : Option (List ResultRow)
deriving DecidableEq, Repr

def resolutionCalls : Resolution → Nat
  | .ok _ k => k
  | .err _ k => k

/-- The row the loop appends for company `c`. -/
def rowOf (resolve : String → Resolution) (c : String) : ResultRow :=
  match resolve c with
  | .ok row _ => .ok c row
  | .err m _ => .err c m

def processStep (resolve : String → Resolution) (total : Nat)
    (acc : BatchState × List ResultRow × Nat) (c : String) : BatchState × List ResultRow × Nat :=
  match resolve c with
  | .ok row k =>
    let results := acc.2.1 ++ [.ok c row]
    let processed := acc.1.processed + 1  -- redis_client.hincrby(..., "processed", 1)  (line 531)
    let st :=
      if total ≤ processed then
        { processed := processed, status := "completed", storedResults := some results }
      else
        { acc.1 with processed := processed }
    (st, results, acc.2.2 + k)
  | .err m k =>
    -- except handler (lines 537-542): the error row is appended,
    -- but `processed` is NOT incremented and no status update runs
    (acc.1, acc.2.1 ++ [.err c m], acc.2.2 + k)

/-- `process_company_batch(companies, country, batch_id)` for a batch whose
Redis hash was initialised with `processed = 0`, `status = "processing"` and
the given `total`.  Returns the final batch state, the `results` list and the
total number of backend calls issued. -/
def process_company_batch (resolve : String → Resolution) (companies : List String)
    (total : Nat) : BatchState × List ResultRow × Nat :=
  companies.foldl (processStep resolve total) (⟨0, "processing", none⟩, [], 0)

/-- `src/main.py` line 649: the company-column cells that become the batch
(`[row[col].strip() for row in reader if row[col].strip()]`). -/
def parse_companies (cells : List String) : List String :=
  cells.filterMap (fun v => if pyStrip v ≠ "" then some (pyStrip v) else none)

/-! ### `src/api/index.py` — `search_web_info` (lines 124-268) and the
`process_file` loop (lines 321-335)

`search_web_info` returns `None` for a company whose lowercased name is the
header alias `'company'`; otherwise it always issues the first
`openai.ChatCompletion.create` call and then exactly one more (either the
verification call or the backup call), so every non-short-circuited
resolution makes 2 OpenAI calls.  The two response texts are oracles `o1`
(first estimate) and `o2` (whichever second call runs).  Web-search/URL
fetching only feeds prompt text and is folded into the oracles. -/

structure IndexResult where
  company : String
  employee_count : String
  confidence : String
deriving DecidableEq, Repr

def search_web_info (o1 o2 : String) (company country : String) : Option IndexResult × Nat :=
  if pyLower company = "company" then (none, 0)
  else
    match extract_number o1 with
    | some c =>
      if c ≠ "0" then
        -- verification branch (lines 175-215)
        let resp := pyUpper (pyStrip o2)
        let confidence := if resp = "YES" then "High" else if resp = "NO" then "Medium" else "Low"
        (some ⟨company, c, confidence⟩, 2)
      else
        -- backup branch (lines 217-254)
        (some ⟨company, (extract_number o2).getD "0", "Low"⟩, 2)
    | none =>
      (some ⟨company, (extract_number o2).getD "0", "Low"⟩, 2)

/-- The per-row loop of `process_file`: skip the header row, skip rows with
fewer than two columns, resolve `(row[0].strip(), row[1].strip().lower())`,
and append the result only if it is not `None`. -/
def process_file_rows (o1 o2 : String) (rows : List (List String)) : List IndexResult :=
  (rows.drop 1).foldl
    (fun acc row =>
      match row with
      | c :: k :: _ =>
        match (search_web_info o1 o2 (pyStrip c) (pyLower (pyStrip k))).1 with
        | some r => acc ++ [r]
        | none => acc
      | _ => acc)
    []

/-! ### `src/backend/app.py` — the Estimate Cache (lines 59-116)

Redis is an association list of `(key, value, expiresAt)` entries, newest
first, with an absolute clock `now`; `setex key ttl v` stores expiry
`now + ttl`, and a read finds the newest entry for the key and ignores it
once expired.  `none` in place of a store means the store is unreachable:
every Redis operation raises `redis.RedisError`.  The Anthropic completions
(lines 73-79 and 105-111 — note the two code paths use different prompts) are
oracles from `(company, country)` to the raw response text. -/

def get_cache_key (company_name country : String) : String :=
  "employee_count:" ++ pyLower company_name ++ ":" ++ pyLower country

def Store := List (String × String × Nat)

def storeGet (s : Store) (now : Nat) (k : String) : Option String :=
  match (List.find? (fun e => e.1 == k) s) with
  | some e => if now < e.2.2 then some e.2.1 else none
  | none => none

def storeSetex (s : Store) (now : Nat) (k : String) (ttl : Nat) (v : String) : Store :=
  (k, v, now + ttl) :: s

/-- `get_employee_count_without_cache` (lines 103-116): one completion with
the fallback prompt, response stripped and returned as-is. -/
def get_employee_count_without_cache (fallback : String → String → String)
    (company_name country : String) : String :=
  pyStrip (fallback company_name country)

/-- `get_employee_count` (lines 62-101).  Returns the result string, the store
afterwards, and the number of backend (Anthropic) calls made. -/
def get_employee_count (backend fallback : String → String → String)
    (store : Option Store) (now : Nat) (company_name country : String) :
    String × Option Store × Nat :=
  match store with
  | none =>
    -- redis_client.get raises RedisError; handler (lines 95-98) falls back
    (get_employee_count_without_cache fallback company_name country, none, 1)
  | some s =>
    let key := get_cache_key company_name country
    let cached :=
      match storeGet s now key with
      | some v => if v = "" then none else some v  -- `if cached_result:` — "" is falsy
      | none => none
    match cached with
    | some v => (v, some s, 0)
    | none =>
      let resp := pyStrip (backend company_name country)
      let s' := if pyLower resp ≠ "unknown" then storeSetex s now key 86400 resp else s
      let result :=
        if pyIsInt resp then resp
        else if pyLower resp = "unknown" then "No data available"
        else resp
      (result, some s', 1)

/-! ### Helper lemmas -/

theorem batch_foldl_results (resolve : String → Resolution) (total : Nat) :
    ∀ (cs : List String) (acc : BatchState × List ResultRow × Nat),
      (cs.foldl (processStep resolve total) acc).2.1 = acc.2.1 ++ cs.map (rowOf resolve) := by
  intro cs
  induction cs with
  | nil => intro acc; simp
  | cons c rest ih =>
    intro acc
    rw [List.foldl_cons, ih, List.map_cons]
    have hstep : (processStep resolve total acc c).2.1 = acc.2.1 ++ [rowOf resolve c] := by
      unfold processStep rowOf
      cases resolve c with
      | ok row k => rfl
      | err m k => rfl
    rw [hstep, List.append_assoc, List.singleton_append]

theorem batch_foldl_calls (resolve : String → Resolution) (total : Nat) :
    ∀ (cs : List String) (acc : BatchState × List ResultRow × Nat),
      (cs.foldl (processStep resolve total) acc).2.2 =
        acc.2.2 + (cs.map (fun c => resolutionCalls (resolve c))).sum := by
  intro cs
  induction cs with
  | nil => intro acc; simp
  | cons c rest ih =>
    intro acc
    rw [List.foldl_cons, ih]
    have hstep : (processStep resolve total acc c).2.2 = acc.2.2 + resolutionCalls (resolve c) := by
      unfold processStep resolutionCalls
      cases resolve c with
      | ok row k => rfl
      | err m k => rfl
    rw [hstep, List.map_cons, List.sum_cons, Nat.add_assoc]

/-- Rows of `process_file` that actually produce a result: at least two
columns and a company cell that does not normalise to the header word. -/
def keptRow (row : List String) : Bool :=
  match row with
  | c :: _ :: _ => pyLower (pyStrip c) != "company"
  | _ => false

theorem search_web_info_fst_eq_none_iff (o1 o2 company country : String) :
    (search_web_info o1 o2 company country).1 = none ↔ pyLower company = "company" := by
  unfold search_web_info
  split
  · simp_all
  · rcases h : extract_number o1 with _ | c <;> simp_all <;> split <;> simp_all

theorem process_file_foldl_length (o1 o2 : String) :
    ∀ (rs : List (List String)) (acc : List IndexResult),
      (rs.foldl
        (fun acc row =>
          match row with
          | c :: k :: _ =>
            match (search_web_info o1 o2 (pyStrip c) (pyLower (pyStrip k))).1 with
            | some r => acc ++ [r]
            | none => acc
          | _ => acc)
        acc).length = acc.length + (rs.filter keptRow).length := by
  intro rs
  induction rs with
  | nil => intro acc; simp
  | cons row rest ih =>
    intro acc
    rw [List.foldl_cons, ih]
    match row with
    | [] => simp [keptRow]
    | [c] => simp [keptRow]
    | c :: k :: t =>
      rcases hr : (search_web_info o1 o2 (pyStrip c) (pyLower (pyStrip k))).1 with _ | r
      · have hk : keptRow (c :: k :: t) = false := by
          have := (search_web_info_fst_eq_none_iff o1 o2 (pyStrip c) (pyLower (pyStrip k))).mp hr
          simp [keptRow, this]
        simp [hr, hk]
      · have hk : keptRow (c :: k :: t) = true := by
          have : ¬ pyLower (pyStrip c) = "company" := by
            intro hc
            rw [(search_web_info_fst_eq_none_iff o1 o2 (pyStrip c) (pyLower (pyStrip k))).mpr hc] at hr
            exact Option.noConfusion hr
          simp [keptRow, this]
        simp [hr, hk, Nat.add_comm, Nat.add_assoc, Nat.add_left_comm]

theorem toLower_of_isDigit {c : Char} (h : c.isDigit = true) : c.toLower = c := by
  simp only [Char.isDigit, Bool.and_eq_true, decide_eq_true_eq] at h
  unfold Char.toLower
  have hle : c.toNat ≤ 57 := by
    have := h.2
    simp only [UInt32.le_def, BitVec.le_def] at this
    exact this
  have : ¬(65 ≤ c.toNat ∧ c.toNat ≤ 90) := by omega
  simp [this]

/-- A string whose Python `lower()` is `"unknown"` never parses as an int. -/
theorem pyIsInt_false_of_lower_unknown {r : String} (h : pyLower r = "unknown") :
    pyIsInt r = false := by
  have hd : r.data.map Char.toLower = "unknown".data := congrArg String.data h
  rcases hr : r.data with _ | ⟨c, cs⟩
  · rw [hr] at hd; exact absurd hd (by decide)
  · rw [hr] at hd
    have hc : Char.toLower c = 'u' := by
      have := congrArg List.head? hd
      simpa using this
    have hpy : pyIsInt r = pyIsIntL (c :: cs) := by
      unfold pyIsInt; rw [hr]
    rw [hpy]
    have hdig : c.isDigit = false := by
      by_cases hdig : c.isDigit = true
      · exfalso
        rw [toLower_of_isDigit hdig] at hc
        rw [hc] at hdig
        exact absurd hdig (by decide)
      · exact Bool.eq_false_iff.mpr hdig
    by_cases hsig : (c == '-' || c == '+') = true
    · exfalso
      have : c = '-' ∨ c = '+' := by simpa using hsig
      rcases this with h1 | h1 <;> (rw [h1] at hc; exact absurd hc (by decide))
    · have hsig' : (c == '-' || c == '+') = false := by
        simp only [Bool.not_eq_true] at hsig
        exact hsig
      simp [pyIsIntL, hsig', List.all_cons, hdig]

/-! ### Claims C1-C3 — the Batch Orchestrator -/

/-- C1 (amended).  In `src/main.py`'s `process_company_batch` the batch is
complete: the result list has exactly one row per company, in input order,
and a resolution that throws becomes an error row instead of being dropped.
In `src/api/index.py`'s `process_file` loop, however, a row with fewer than
two columns, or an entity whose stripped lowercased name is `'company'`,
produces no result row at all, so `len(results)` equals only the number of
rows that survive that filter. -/
theorem c1_batch_completeness :
    (∀ (resolve : String → Resolution) (companies : List String) (total : Nat),
      (process_company_batch resolve companies total).2.1 = companies.map (rowOf resolve) ∧
      (process_company_batch resolve companies total).2.1.length = companies.length ∧
      (process_company_batch resolve companies total).2.1.map rowCompany = companies) ∧
    (∀ (o1 o2 : String) (rows : List (List String)),
      (process_file_rows o1 o2 rows).length = ((rows.drop 1).filter keptRow).length) := by
  constructor
  · intro resolve companies total
    have h : (process_company_batch resolve companies total).2.1 = companies.map (rowOf resolve) := by
      have := batch_foldl_results resolve total companies (⟨0, "processing", none⟩, [], 0)
      simpa [process_company_batch] using this
    refine ⟨h, by rw [h]; simp, ?_⟩
    rw [h, List.map_map]
    have hrc : ∀ c, (rowCompany ∘ rowOf resolve) c = c := by
      intro c
      simp only [Function.comp_apply]
      unfold rowOf rowCompany
      cases resolve c <;> rfl
    simp only [List.map_congr_left (fun c _ => hrc c), List.map_id']
  · intro o1 o2 rows
    have := process_file_foldl_length o1 o2 (rows.drop 1) []
    simpa [process_file_rows] using this

/-- C1, counterexample.  A parsed entity named `Company` (two-column row, so
it enters the loop) is resolved to `None` by `search_web_info` and appended
nowhere: the batch of 1 entity returns 0 results, not 1. -/
theorem c1_counterexample_dropped_entity :
    (process_file_rows "250" "YES" [["Company Name", "Country"], ["Company", "sg"]]).length = 0 ∧
    ([["Company Name", "Country"], ["Company", "sg"]].drop 1).length = 1 ∧ (0 : Nat) ≠ 1 := by
  exact ⟨rfl, rfl, by decide⟩

/-- C2: the failing input.  A batch of one company whose resolution throws:
the error row is appended (line 539), but the `processed` counter is only
incremented on the success path (line 531, inside the `try`), so `processed`
stays 0, never reaches `total = 1`, and the status never becomes
`"completed"` — contradicting the spec's unconditional-increment requirement. -/
theorem c2_failed_resolution_not_counted :
    (process_company_batch (fun _ => .err "ValueError: Invalid employee count received for Acme" 2)
        ["Acme"] 1).1.processed = 0 ∧
    (process_company_batch (fun _ => .err "ValueError: Invalid employee count received for Acme" 2)
        ["Acme"] 1).2.1.length = 1 ∧
    (process_company_batch (fun _ => .err "ValueError: Invalid employee count received for Acme" 2)
        ["Acme"] 1).1.status = "processing" ∧
    (process_company_batch (fun _ => .err "ValueError: Invalid employee count received for Acme" 2)
        ["Acme"] 1).1.status ≠ "completed" := by
  exact ⟨rfl, rfl, rfl, by decide⟩

/-- C3 (amended).  The batch loop never short-circuits: each company's result
row depends only on that company's own resolution, and the batch issues the
full sum of every company's backend calls — after a rate-limited entity,
subsequent entities are still resolved with fresh backend calls. -/
theorem c3_no_rate_limit_short_circuit (resolve : String → Resolution)
    (companies : List String) (total : Nat) :
    (∀ i : Nat, ((process_company_batch resolve companies total).2.1)[i]? =
      (companies[i]?).map (rowOf resolve)) ∧
    (process_company_batch resolve companies total).2.2 =
      (companies.map (fun c => resolutionCalls (resolve c))).sum := by
  have hres : (process_company_batch resolve companies total).2.1 = companies.map (rowOf resolve) := by
    have := batch_foldl_results resolve total companies (⟨0, "processing", none⟩, [], 0)
    simpa [process_company_batch] using this
  constructor
  · intro i
    rw [hres]
    exact List.getElem?_map ..
  · have := batch_foldl_calls resolve total companies (⟨0, "processing", none⟩, [], 0)
    simpa [process_company_batch] using this

/-- C3, counterexample.  Company `A` exhausts its rate-limit retries
(resolution fails with `RateLimitError` after 3 backend calls); company `B`
is nevertheless resolved normally afterwards: its row is a success row, not a
rate-limited one, and its backend call is issued (total 4 calls, not 3). -/
theorem c3_counterexample_backend_called_after_rate_limit :
    ((process_company_batch
        (fun c => if c = "A" then Resolution.err "RateLimitError: Rate limit reached" 3
                  else Resolution.ok ⟨250, "HIGH", "linkedin", "estimate", false⟩ 1)
        ["A", "B"] 2).2.1)[1]? =
      some (ResultRow.ok "B" ⟨250, "HIGH", "linkedin", "estimate", false⟩) ∧
    (process_company_batch
        (fun c => if c = "A" then Resolution.err "RateLimitError: Rate limit reached" 3
                  else Resolution.ok ⟨250, "HIGH", "linkedin", "estimate", false⟩ 1)
        ["A", "B"] 2).2.2 = 4 := by
  exact ⟨by decide, by decide⟩

/-! ### Claim C4 — the retry policy -/

/-- C4: `call_openai_with_retry` makes at most 3 calls; every call after the
first happens only because the previous attempt raised `RateLimitError`
(the only transient failure tenacity is told to retry); the backoff waits
slept are exactly the exponential schedule `wait_exponential(1, 4, 10)` of
the completed attempts; and a permanent (non-rate-limit) failure on the first
attempt means exactly one call and no backoff at all. -/
theorem c4_retry_only_on_transient (oracle : Nat → CallOutcome) :
    (call_openai_with_retry oracle).2.1 ≤ 3 ∧
    (∀ i, 1 ≤ i → i < (call_openai_with_retry oracle).2.1 → oracle i = .rateLimited) ∧
    (call_openai_with_retry oracle).2.2 =
      (List.range ((call_openai_with_retry oracle).2.1 - 1)).map
        (fun j => wait_exponential 1 4 10 (j + 1)) ∧
    (∀ m, oracle 1 = .failed m →
      (call_openai_with_retry oracle).2.1 = 1 ∧ (call_openai_with_retry oracle).2.2 = []) := by
  rcases h1 : oracle 1 with r1 | _ | m1
  · have hrun : call_openai_with_retry oracle = (.ok r1, 1, []) := by
      simp [call_openai_with_retry, tenacityRun, h1]
    refine ⟨by simp [hrun], ?_, by simp [hrun], ?_⟩
    · intro i hi1 hi2
      simp only [hrun] at hi2
      exact absurd hi2 (by omega)
    · intro m hm
      exact absurd hm (by simp)
  · rcases h2 : oracle 2 with r2 | _ | m2
    · have hrun : call_openai_with_retry oracle = (.ok r2, 2, [wait_exponential 1 4 10 1]) := by
        simp [call_openai_with_retry, tenacityRun, h1, h2]
      refine ⟨by simp [hrun], ?_, by simp [hrun, List.range_succ], ?_⟩
      · intro i hi1 hi2
        simp only [hrun] at hi2
        have : i = 1 := by omega
        rw [this]; exact h1
      · intro m hm
        exact absurd hm (by simp)
    · rcases h3 : oracle 3 with r3 | _ | m3
      · have hrun : call_openai_with_retry oracle =
            (.ok r3, 3, [wait_exponential 1 4 10 1, wait_exponential 1 4 10 2]) := by
          simp [call_openai_with_retry, tenacityRun, h1, h2, h3]
        refine ⟨by simp [hrun], ?_, by simp [hrun, List.range_succ], ?_⟩
        · intro i hi1 hi2
          simp only [hrun] at hi2
          have : i = 1 ∨ i = 2 := by omega
          rcases this with h | h <;> rw [h]
          · exact h1
          · exact h2
        · intro m hm
          exact absurd hm (by simp)
      · have hrun : call_openai_with_retry oracle =
            (.error "RateLimitError", 3, [wait_exponential 1 4 10 1, wait_exponential 1 4 10 2]) := by
          simp [call_openai_with_retry, tenacityRun, h1, h2, h3]
        refine ⟨by simp [hrun], ?_, by simp [hrun, List.range_succ], ?_⟩
        · intro i hi1 hi2
          simp only [hrun] at hi2
          have : i = 1 ∨ i = 2 := by omega
          rcases this with h | h <;> rw [h]
          · exact h1
          · exact h2
        · intro m hm
          exact absurd hm (by simp)
      · have hrun : call_openai_with_retry oracle =
            (.error m3, 3, [wait_exponential 1 4 10 1, wait_exponential 1 4 10 2]) := by
          simp [call_openai_with_retry, tenacityRun, h1, h2, h3]
        refine ⟨by simp [hrun], ?_, by simp [hrun, List.range_succ], ?_⟩
        · intro i hi1 hi2
          simp only [hrun] at hi2
          have : i = 1 ∨ i = 2 := by omega
          rcases this with h | h <;> rw [h]
          · exact h1
          · exact h2
        · intro m hm
          exact absurd hm (by simp)
    · have hrun : call_openai_with_retry oracle = (.error m2, 2, [wait_exponential 1 4 10 1]) := by
        simp [call_openai_with_retry, tenacityRun, h1, h2]
      refine ⟨by simp [hrun], ?_, by simp [hrun, List.range_succ], ?_⟩
      · intro i hi1 hi2
        simp only [hrun] at hi2
        have : i = 1 := by omega
        rw [this]; exact h1
      · intro m hm
        exact absurd hm (by simp)
  · have hrun : call_openai_with_retry oracle = (.error m1, 1, []) := by
      simp [call_openai_with_retry, tenacityRun, h1]
    refine ⟨by simp [hrun], ?_, by simp [hrun], ?_⟩
    · intro i hi1 hi2
      simp only [hrun] at hi2
      exact absurd hi2 (by omega)
    · intro m hm
      exact ⟨by simp [hrun], by simp [hrun]⟩

/-- C4, witness: a permanent failure on attempt 1 yields exactly one call. -/
theorem c4_retry_only_on_transient_witness :
    (fun _ : Nat => CallOutcome.failed "bad request") 1 = CallOutcome.failed "bad request" ∧
    (call_openai_with_retry (fun _ : Nat => CallOutcome.failed "bad request")).2.1 = 1 ∧
    (call_openai_with_retry (fun _ : Nat => CallOutcome.failed "bad request")).2.2 = [] :=
  ⟨rfl,
    (c4_retry_only_on_transient (fun _ : Nat => CallOutcome.failed "bad request")).2.2.2
      "bad request" rfl⟩

/-! ### Claims C5, C6, C10 — the Estimate Cache -/

/-- C5 (amended).  When the store is unreachable, the Redis error is absorbed:
resolution proceeds and returns normally — but through the separate
`get_employee_count_without_cache` query (one backend call, different prompt,
no caching, no result normalisation), not through the very same path as a
cache miss; the two paths are observably different. -/
theorem c5_cache_fail_soft :
    (∀ (backend fallback : String → String → String) (now : Nat) (company country : String),
      get_employee_count backend fallback none now company country =
        (get_employee_count_without_cache fallback company country, none, 1)) ∧
    ¬(∀ (backend fallback : String → String → String) (now : Nat) (company country : String),
      (get_employee_count backend fallback none now company country).1 =
        (get_employee_count backend fallback (some []) now company country).1) := by
  refine ⟨fun _ _ _ _ _ => rfl, ?_⟩
  intro h
  have := h (fun _ _ => "Unknown") (fun _ _ => "Unknown") 0 "Acme" "Singapore"
  revert this
  decide

/-- C5, counterexample.  With the backend answering `Unknown`, the
store-unreachable path returns `"Unknown"` verbatim while the cache-miss path
returns `"No data available"` — so the degraded resolution is NOT "exactly as
on a cache miss". -/
theorem c5_counterexample_fallback_differs :
    (get_employee_count (fun _ _ => "Unknown") (fun _ _ => "Unknown") none 0
        "Acme" "Singapore").1 = "Unknown" ∧
    (get_employee_count (fun _ _ => "Unknown") (fun _ _ => "Unknown") (some []) 0
        "Acme" "Singapore").1 = "No data available" ∧
    "Unknown" ≠ "No data available" := by
  exact ⟨rfl, rfl, by decide⟩

/-- C5 witness: the unreachable-store resolution of the amended theorem,
instantiated. -/
theorem c5_cache_fail_soft_witness :
    get_employee_count (fun _ _ => " 250 ") (fun _ _ => " 250 ") none 7 "Acme" "Singapore" =
      (get_employee_count_without_cache (fun _ _ => " 250 ") "Acme" "Singapore", none, 1) :=
  c5_cache_fail_soft.1 (fun _ _ => " 250 ") (fun _ _ => " 250 ") 7 "Acme" "Singapore"

/-- C6 (amended).  If the backend's (stripped) response is neither `Unknown`
(case-insensitively) nor empty, then resolving the same pair twice within the
24h TTL issues exactly one backend call in total and the second resolution
returns the first's value from the cache.  (For an `Unknown` response nothing
is cached and the second resolution calls the backend again — see the
counterexample.) -/
theorem c6_cache_idempotent_non_unknown (backend fallback : String → String → String)
    (s : Store) (now now2 : Nat) (company country : String)
    (hmiss : storeGet s now (get_cache_key company country) = none)
    (hunk : pyLower (pyStrip (backend company country)) ≠ "unknown")
    (hne : pyStrip (backend company country) ≠ "")
    (httl : now2 < now + 86400) :
    (get_employee_count backend fallback
        (get_employee_count backend fallback (some s) now company country).2.1
        now2 company country).1 =
      (get_employee_count backend fallback (some s) now company country).1 ∧
    (get_employee_count backend fallback (some s) now company country).2.2 +
      (get_employee_count backend fallback
        (get_employee_count backend fallback (some s) now company country).2.1
        now2 company country).2.2 = 1 := by
  have hres : (if pyIsInt (pyStrip (backend company country)) then pyStrip (backend company country)
      else if pyLower (pyStrip (backend company country)) = "unknown" then "No data available"
      else pyStrip (backend company country)) = pyStrip (backend company country) := by
    rw [if_neg hunk, ite_self]
  have hrun1 : get_employee_count backend fallback (some s) now company country =
      (pyStrip (backend company country),
       some (storeSetex s now (get_cache_key company country) 86400
         (pyStrip (backend company country))), 1) := by
    simp only [get_employee_count, hmiss]
    rw [if_pos hunk, hres]
  have hget : storeGet
      (storeSetex s now (get_cache_key company country) 86400 (pyStrip (backend company country)))
      now2 (get_cache_key company country) = some (pyStrip (backend company country)) := by
    simp [storeGet, storeSetex, httl]
  have hrun2 : get_employee_count backend fallback
      (some (storeSetex s now (get_cache_key company country) 86400
        (pyStrip (backend company country)))) now2 company country =
      (pyStrip (backend company country),
       some (storeSetex s now (get_cache_key company country) 86400
         (pyStrip (backend company country))), 0) := by
    simp only [get_employee_count, hget]
    rw [if_neg hne]
  rw [hrun1]
  rw [show (pyStrip (backend company country),
       some (storeSetex s now (get_cache_key company country) 86400
         (pyStrip (backend company country))), 1).2.1 =
      some (storeSetex s now (get_cache_key company country) 86400
        (pyStrip (backend company country))) from rfl]
  rw [hrun2]
  exact ⟨rfl, rfl⟩

/-- C6 witness: a numeric response is cached and served on the second call. -/
theorem c6_cache_idempotent_non_unknown_witness :
    storeGet [] 0 (get_cache_key "Acme" "Singapore") = none ∧
    pyLower (pyStrip ((fun _ _ => " 250 ") "Acme" "Singapore")) ≠ "unknown" ∧
    pyStrip ((fun _ _ => " 250 ") "Acme" "Singapore") ≠ "" ∧
    (1000 : Nat) < 0 + 86400 ∧
    (get_employee_count (fun _ _ => " 250 ") (fun _ _ => " 250 ")
        (get_employee_count (fun _ _ => " 250 ") (fun _ _ => " 250 ") (some []) 0
          "Acme" "Singapore").2.1 1000 "Acme" "Singapore").1 =
      (get_employee_count (fun _ _ => " 250 ") (fun _ _ => " 250 ") (some []) 0
        "Acme" "Singapore").1 ∧
    (get_employee_count (fun _ _ => " 250 ") (fun _ _ => " 250 ") (some []) 0
        "Acme" "Singapore").2.2 +
      (get_employee_count (fun _ _ => " 250 ") (fun _ _ => " 250 ")
        (get_employee_count (fun _ _ => " 250 ") (fun _ _ => " 250 ") (some []) 0
          "Acme" "Singapore").2.1 1000 "Acme" "Singapore").2.2 = 1 :=
  ⟨rfl, by decide, by decide, by decide,
    c6_cache_idempotent_non_unknown (fun _ _ => " 250 ") (fun _ _ => " 250 ") [] 0 1000
      "Acme" "Singapore" rfl (by decide) (by decide) (by decide)⟩

/-- C6, counterexample.  An `Unknown` response is never cached (line 84), so
resolving the same pair twice — even back to back, well within any TTL —
issues TWO backend calls, not at most one as the claim requires. -/
theorem c6_counterexample_unknown_two_calls :
    (get_employee_count (fun _ _ => "Unknown") (fun _ _ => "Unknown") (some []) 0
        "Acme" "Singapore").2.2 +
      (get_employee_count (fun _ _ => "Unknown") (fun _ _ => "Unknown")
        (get_employee_count (fun _ _ => "Unknown") (fun _ _ => "Unknown") (some []) 0
          "Acme" "Singapore").2.1 100 "Acme" "Singapore").2.2 = 2 ∧
    ¬((get_employee_count (fun _ _ => "Unknown") (fun _ _ => "Unknown") (some []) 0
        "Acme" "Singapore").2.2 +
      (get_employee_count (fun _ _ => "Unknown") (fun _ _ => "Unknown")
        (get_employee_count (fun _ _ => "Unknown") (fun _ _ => "Unknown") (some []) 0
          "Acme" "Singapore").2.1 100 "Acme" "Singapore").2.2 ≤ 1) := by
  exact ⟨by decide, by decide⟩

/-- C10: cache keys lowercase both components
(`employee_count:{name.lower()}:{country.lower()}`), so (entity, region)
pairs that differ only in letter case share one cache entry: a value cached
under one variant is returned, within the TTL, for any other variant. -/
theorem c10_cache_key_case_insensitive (n1 c1 n2 c2 v : String) (s : Store) (now now2 : Nat)
    (hn : pyLower n1 = pyLower n2) (hc : pyLower c1 = pyLower c2)
    (httl : now2 < now + 86400) :
    get_cache_key n1 c1 = get_cache_key n2 c2 ∧
    storeGet (storeSetex s now (get_cache_key n1 c1) 86400 v) now2 (get_cache_key n2 c2) =
      some v := by
  have hkey : get_cache_key n1 c1 = get_cache_key n2 c2 := by
    unfold get_cache_key
    rw [hn, hc]
  refine ⟨hkey, ?_⟩
  rw [← hkey]
  simp [storeGet, storeSetex, httl]

/-- C10 witness: `("Acme", "Singapore")` and `("ACME", "singapore")` share an
entry. -/
theorem c10_cache_key_case_insensitive_witness :
    pyLower "Acme" = pyLower "ACME" ∧ pyLower "Singapore" = pyLower "singapore" ∧
    get_cache_key "Acme" "Singapore" = get_cache_key "ACME" "singapore" ∧
    storeGet (storeSetex [] 0 (get_cache_key "Acme" "Singapore") 86400 "250") 1
      (get_cache_key "ACME" "singapore") = some "250" :=
  ⟨by decide, by decide,
    (c10_cache_key_case_insensitive "Acme" "Singapore" "ACME" "singapore" "250" [] 0 1
      (by decide) (by decide) (by decide)).1,
    (c10_cache_key_case_insensitive "Acme" "Singapore" "ACME" "singapore" "250" [] 0 1
      (by decide) (by decide) (by decide)).2⟩

/-! ### Claim C7 — empty entity names -/

/-- C7 (amended).  There is no empty-name ⇒ ERROR short-circuit anywhere:
`src/main.py` filters empty/whitespace-only company cells out while parsing
the file (they produce no row at all, not an ERROR row), and in
`src/api/index.py` a resolution that does run never checks for emptiness —
an empty name goes through the full pipeline with its 2 OpenAI calls and
yields an ordinary result; the only short-circuit is the header alias
`'company'`, which yields `None` (a dropped row) with no backend call. -/
theorem c7_no_empty_name_short_circuit :
    (∀ (cells : List String) (c : String), c ∈ parse_companies cells → c ≠ "") ∧
    (∀ (o1 o2 company country : String), pyLower company = "company" →
      search_web_info o1 o2 company country = (none, 0)) ∧
    (∀ (o1 o2 country : String),
      (search_web_info o1 o2 "" country).2 = 2 ∧ (search_web_info o1 o2 "" country).1 ≠ none) := by
  refine ⟨?_, ?_, ?_⟩
  · intro cells c hmem
    rw [parse_companies, List.mem_filterMap] at hmem
    obtain ⟨v, _, hv⟩ := hmem
    by_cases h : pyStrip v ≠ ""
    · rw [if_pos h] at hv
      cases hv
      exact h
    · rw [if_neg h] at hv
      exact absurd hv (by simp)
  · intro o1 o2 company country h
    unfold search_web_info
    rw [if_pos h]
  · intro o1 o2 country
    have hne : ¬ pyLower "" = "company" := by decide
    refine ⟨?_, ?_⟩
    · unfold search_web_info
      rw [if_neg hne]
      rcases h : extract_number o1 with _ | c
      · rfl
      · simp only
        split
        · rfl
        · rfl
    · unfold search_web_info
      rw [if_neg hne]
      rcases h : extract_number o1 with _ | c
      · simp
      · simp only
        split
        · simp
        · simp

/-- C7, counterexample.  A batch entity with empty name is fully resolved:
2 backend calls are made (not 0) and a normal populated estimate comes back
(not an ERROR outcome). -/
theorem c7_counterexample_empty_name_resolved :
    search_web_info "about 250 employees" "YES" "" "sg" =
      (some ⟨"", "250", "High"⟩, 2) ∧ (2 : Nat) ≠ 0 := by
  exact ⟨by decide, by decide⟩

/-- C7 witness: the header-alias short-circuit and the parse filter of the
amended theorem, instantiated. -/
theorem c7_no_empty_name_short_circuit_witness :
    "Acme" ∈ parse_companies [" Acme ", "  "] ∧ "Acme" ≠ "" ∧
    pyLower "Company" = "company" ∧
    search_web_info "x" "y" "Company" "sg" = (none, 0) :=
  ⟨by decide, c7_no_empty_name_short_circuit.1 [" Acme ", "  "] "Acme" (by decide),
    by decide, c7_no_empty_name_short_circuit.2.1 "x" "y" "Company" "sg" (by decide)⟩

/-! ### Claim C8 — numeric normalisation and the `Unknown` denylist -/

theorem takeWhile_eq_self_of_all {α : Type} {p : α → Bool} :
    ∀ {l : List α}, (∀ a ∈ l, p a = true) → l.takeWhile p = l
  | [], _ => rfl
  | a :: l, h => by
    rw [List.takeWhile_cons_of_pos (h a (List.mem_cons_self a l))]
    rw [takeWhile_eq_self_of_all (fun b hb => h b (List.mem_cons_of_mem a hb))]

/-- C8 (amended).  Normalisation is deterministic (the embedded functions are
pure), and the `Unknown` denylist behaves as claimed: a backend response whose
`lower()` is `"unknown"` yields `"No data available"` with nothing cached and
no number ever extracted from it.  The numeric rule however is NOT
"first run of digits": on a dot-free string containing a digit,
`validate_employee_count` returns the concatenation of ALL digit characters
of the string. -/
theorem c8_unknown_denylist_and_concat_extraction
    (backend fallback : String → String → String) (s : Store) (now : Nat)
    (company country : String) (sstr : String)
    (hmiss : storeGet s now (get_cache_key company country) = none)
    (hunk : pyLower (pyStrip (backend company country)) = "unknown")
    (hdot : '.' ∉ sstr.data)
    (hdig : sstr.data.any Char.isDigit = true) :
    (get_employee_count backend fallback (some s) now company country).1 = "No data available" ∧
    (get_employee_count backend fallback (some s) now company country).2.1 = some s ∧
    validate_employee_count (.strv sstr) =
      some (Int.ofNat (natOfDigits (sstr.data.filter Char.isDigit))) := by
  have hint : pyIsInt (pyStrip (backend company country)) = false :=
    pyIsInt_false_of_lower_unknown hunk
  have hrun : get_employee_count backend fallback (some s) now company country =
      ("No data available", some s, 1) := by
    simp only [get_employee_count, hmiss]
    rw [hint]
    simp only [Bool.false_eq_true, if_false]
    rw [if_pos hunk, if_neg (fun hcon => hcon hunk)]
  refine ⟨by rw [hrun], by rw [hrun], ?_⟩
  have hcl : sstr.data.filter (fun c => c.isDigit || c == '.') = sstr.data.filter Char.isDigit := by
    apply List.filter_congr
    intro a ha
    have hadot : ¬ a = '.' := fun h => hdot (h ▸ ha)
    simp [hadot]
  have hdmem : ∃ a ∈ sstr.data, a.isDigit = true := by
    simpa [List.any_eq_true] using hdig
  obtain ⟨a, hamem, hadig⟩ := hdmem
  have hfd : a ∈ sstr.data.filter Char.isDigit := List.mem_filter.mpr ⟨hamem, hadig⟩
  have hnonempty : (sstr.data.filter Char.isDigit).isEmpty = false := by
    cases hf : sstr.data.filter Char.isDigit with
    | nil => rw [hf] at hfd; exact absurd hfd (List.not_mem_nil a)
    | cons b l => rfl
  have hnodot : '.' ∉ sstr.data.filter Char.isDigit := by
    intro hmem
    exact absurd (List.mem_filter.mp hmem).2 (by decide)
  have hcount : (sstr.data.filter Char.isDigit).count '.' = 0 :=
    List.count_eq_zero.mpr hnodot
  have halldig : ∀ b ∈ sstr.data.filter Char.isDigit, (b != '.') = true := by
    intro b hb
    have := (List.mem_filter.mp hb).2
    have hbdot : ¬ b = '.' := fun h => by rw [h] at this; exact absurd this (by decide)
    simpa using hbdot
  have hany : (sstr.data.filter Char.isDigit).any Char.isDigit = true := by
    rw [List.any_eq_true]
    exact ⟨a, hfd, hadig⟩
  unfold validate_employee_count
  simp only [hcl, hnonempty, Bool.false_eq_true, if_false, hcount, hany]
  rw [if_pos (by decide), takeWhile_eq_self_of_all halldig]

/-- C8, counterexample.  `validate_employee_count` concatenates every digit
run: `"1,000 to 2,000"` becomes 10002000, while the spec's
first-run-of-digits rule (separators ignored) gives 1000; and
`extract_number` reads `"1,000"` as `"000"` (the comma breaks the word run)
and finds nothing at all in a single-digit text. -/
theorem c8_counterexample_not_first_digit_run :
    validate_employee_count (.strv "1,000 to 2,000") = some 10002000 ∧
    spec_first_digit_run "1,000 to 2,000" = some 1000 ∧
    (10002000 : Int) ≠ (1000 : Int) ∧
    extract_number "1,000" = some "000" ∧
    extract_number "7" = none := by
  exact ⟨by decide, by decide, by decide, by decide, by decide⟩

/-- C8 witness: the denylist arm and the digit-concatenation arm of the
amended theorem, instantiated. -/
theorem c8_unknown_denylist_witness :
    (get_employee_count (fun _ _ => "Unknown") (fun _ _ => "Unknown") (some []) 0
        "Acme" "Singapore").1 = "No data available" ∧
    (get_employee_count (fun _ _ => "Unknown") (fun _ _ => "Unknown") (some []) 0
        "Acme" "Singapore").2.1 = some [] ∧
    validate_employee_count (.strv "1 234") =
      some (Int.ofNat (natOfDigits (("1 234" : String).data.filter Char.isDigit))) :=
  c8_unknown_denylist_and_concat_extraction (fun _ _ => "Unknown") (fun _ _ => "Unknown")
    [] 0 "Acme" "Singapore" "1 234" rfl (by decide) (by decide) (by decide)

/-! ### Claim C9 — the Reviewer appends an audit marker whenever it changes
the count -/

/-- Invariant of one adjustment block: sources only grow (by appending), and
if the block changed the count it strictly extended the sources with an audit
marker. -/
def StageOK (st st2 : RSt) : Prop :=
  st.sources <+: st2.sources ∧
  (st2.count ≠ st.count →
    st.sources.length < st2.sources.length ∧ ∃ m, isMarker m = true ∧ m ∈ st2.sources)

theorem stageOK_refl (st : RSt) : StageOK st st :=
  ⟨List.prefix_rfl, fun h => absurd rfl h⟩

theorem stageOK_trans {a b c : RSt} (h1 : StageOK a b) (h2 : StageOK b c) : StageOK a c := by
  refine ⟨h1.1.trans h2.1, ?_⟩
  intro hne
  by_cases hbc : c.count = b.count
  · have hba : b.count ≠ a.count := fun h => hne (hbc.trans h)
    obtain ⟨hlen, m, hm, hmem⟩ := h1.2 hba
    exact ⟨lt_of_lt_of_le hlen h2.1.length_le, m, hm, h2.1.subset hmem⟩
  · obtain ⟨hlen, m, hm, hmem⟩ := h2.2 hbc
    exact ⟨lt_of_le_of_lt h1.1.length_le hlen, m, hm, hmem⟩

theorem stageOK_append (st st2 : RSt) (m : String)
    (hs : st2.sources = st.sources ++ [m]) (hm : isMarker m = true) : StageOK st st2 := by
  constructor
  · rw [hs]
    exact List.prefix_append _ _
  · intro _
    exact ⟨by rw [hs]; simp, m, hm, by rw [hs]; simp⟩

theorem strContains_LOCATION (u : String) : strContains ("LOCATION_" ++ u) "LOCATION" = true := by
  rw [strContains_iff, String.data_append]
  have hp : ("LOCATION" : String).data <+: ("LOCATION_" : String).data := by decide
  exact (hp.trans (List.prefix_append _ _)).isInfix

theorem isMarker_location (u : String) : isMarker ("LOCATION_" ++ u) = true := by
  unfold isMarker
  rw [strContains_LOCATION u]
  simp

theorem stageA_ok (country ctype : String) (ranges : List (String × Int × Int)) (st : RSt) :
    StageOK st (stageA country ctype ranges st) := by
  unfold stageA
  dsimp only
  split
  · exact stageOK_refl st
  · split
    · exact stageOK_refl st
    · split
      · exact stageOK_append st _ "ADJUSTED" rfl (by decide)
      · exact stageOK_refl st

theorem stageBStep_ok (ranges : List (String × Int × Int)) (webLower : String) (st : RSt)
    (locEntry : String × String) : StageOK st (stageBStep ranges webLower st locEntry) := by
  unfold stageBStep
  dsimp only
  split
  · split
    · exact stageOK_append st _ ("LOCATION_" ++ pyUpper locEntry.1) rfl
        (isMarker_location (pyUpper locEntry.1))
    · exact stageOK_refl st
  · exact stageOK_refl st

theorem foldl_stageOK {β : Type} (f : RSt → β → RSt) (h : ∀ st b, StageOK st (f st b)) :
    ∀ (l : List β) (st : RSt), StageOK st (l.foldl f st)
  | [], st => stageOK_refl st
  | b :: l, st => stageOK_trans (h st b) (foldl_stageOK f h l (f st b))

theorem stageB_ok (ranges : List (String × Int × Int)) (webLower : String)
    (locations : List (String × String)) (st : RSt) :
    StageOK st (stageB ranges webLower locations st) :=
  foldl_stageOK _ (fun st b => stageBStep_ok ranges webLower st b) locations st

theorem stageC_ok (country : String) (variations : List String)
    (ranges : List (String × Int × Int)) (st : RSt) :
    StageOK st (stageC country variations ranges st) := by
  unfold stageC
  dsimp only
  split
  · exact stageOK_refl st
  · split
    · exact stageOK_append st _ "HOME_MARKET" rfl (by decide)
    · split
      · exact stageOK_append st _ "FOREIGN_MARKET" rfl (by decide)
      · exact stageOK_refl st

theorem afterA_ok (company country : String) (st : RSt) : StageOK st (afterA company country st) :=
  stageA_ok country (company_type_of company) (rangesFor (company_type_of company)) st

theorem afterB_ok (company web_info : String) (st : RSt) : StageOK st (afterB company web_info st) := by
  unfold afterB
  split
  · exact stageB_ok _ _ _ st
  · exact stageOK_refl st

theorem afterC_ok (company country : String) (st : RSt) : StageOK st (afterC company country st) := by
  unfold afterC
  split
  · exact stageC_ok _ _ _ st
  · exact stageOK_refl st

theorem reviewCore_ok (company country : String) (st : RSt) (web_info : String) :
    StageOK st (reviewCore company country st web_info) :=
  stageOK_trans (afterA_ok company country st)
    (stageOK_trans (afterB_ok company web_info (afterA company country st))
      (afterC_ok company country (afterB company web_info (afterA company country st))))

theorem infix_of_append_left {α : Type} {x y : List α} (A : List α) (h : x <:+: y) :
    x <:+: A ++ y :=
  h.trans ⟨A, [], by simp⟩

theorem infix_pyStrRest {m : String} : ∀ {l : List String}, m ∈ l →
    m.data <:+: (pyStrRest l).data := by
  intro l
  induction l with
  | nil => intro hmem; cases hmem
  | cons s rest ih =>
    intro hmem
    rcases List.mem_cons.mp hmem with h | h
    · subst h
      rw [pyStrRest]
      exact ⟨", ".data ++ [pyQuoteChar], [pyQuoteChar] ++ (pyStrRest rest).data,
        by simp [pyQuote, String.data_append]⟩
    · rw [pyStrRest]
      have hcast : ((", " ++ pyQuote s ++ pyStrRest rest) : String).data =
          (", " ++ pyQuote s : String).data ++ (pyStrRest rest).data := by
        simp [String.data_append]
      rw [hcast]
      exact infix_of_append_left _ (ih h)

theorem infix_pyStrOfList {m : String} {l : List String} (hmem : m ∈ l) :
    m.data <:+: (pyStrOfList l).data := by
  cases l with
  | nil => cases hmem
  | cons s rest =>
    rcases List.mem_cons.mp hmem with h | h
    · subst h
      rw [pyStrOfList]
      exact ⟨"[".data ++ [pyQuoteChar], [pyQuoteChar] ++ (pyStrRest rest).data ++ "]".data,
        by simp [pyQuote, String.data_append]⟩
    · rw [pyStrOfList]
      obtain ⟨u, v, huv⟩ := infix_pyStrRest h
      refine ⟨("[" ++ pyQuote s : String).data ++ u, v ++ "]".data, ?_⟩
      have hrhs : (("[" ++ pyQuote s ++ pyStrRest rest ++ "]") : String).data =
          ("[" ++ pyQuote s : String).data ++ (u ++ m.data ++ v) ++ "]".data := by
        rw [huv]
        simp [String.data_append]
      rw [hrhs]
      simp [List.append_assoc]

/-- A marker element anywhere in `sources` makes line 359's `was_adjusted`
test true. -/
theorem wasAdjusted_of_marker {l : List String} {m : String} (hmem : m ∈ l)
    (hm : isMarker m = true) : wasAdjusted l = true := by
  unfold wasAdjusted
  unfold isMarker at hm
  simp only [Bool.or_eq_true] at hm
  rcases hm with (h | h) | h
  · have hma : m = "ADJUSTED" := by simpa using h
    subst hma
    have : l.contains "ADJUSTED" = true := List.elem_iff.mpr hmem
    rw [this]
    simp
  · have : strContains (pyStrOfList l) "LOCATION" = true := by
      rw [strContains_iff]
      exact (strContains_iff.mp h).trans (infix_pyStrOfList hmem)
    rw [this]
    simp
  · have : strContains (pyStrOfList l) "MARKET" = true := by
      rw [strContains_iff]
      exact (strContains_iff.mp h).trans (infix_pyStrOfList hmem)
    rw [this]
    simp

/-- C9: whenever `review_employee_count` returns a count different from the
first-pass count, its `sources` are the input's sources strictly extended
(the input is a proper prefix), an audit marker (`ADJUSTED`, a
`LOCATION_...` tag, or a `..._MARKET` tag) is present among them, and the
result is reported with `was_adjusted = True`; a changed count without a
marker is impossible. -/
theorem c9_reviewer_appends_marker (company country : String) (ir : InitResult)
    (web_info : String)
    (h : (review_employee_count company country ir web_info).employee_count ≠
      ir.employee_count) :
    ir.sources <+: (review_employee_count company country ir web_info).sources ∧
    ir.sources.length < (review_employee_count company country ir web_info).sources.length ∧
    (∃ m, isMarker m = true ∧ m ∈ (review_employee_count company country ir web_info).sources) ∧
    (review_employee_count company country ir web_info).was_adjusted = true := by
  rcases hec : ir.employee_count with _ | c
  · exfalso
    apply h
    simp [review_employee_count, hec, unreviewed]
  · by_cases h0 : c = 0
    · exfalso
      apply h
      simp [review_employee_count, hec, h0, unreviewed]
    · by_cases hmy : pyLower country = "malaysia"
      · have hOK := reviewCore_ok company country ⟨c, ir.confidence, ir.sources, ir.explanation⟩
          web_info
        have hrev : review_employee_count company country ir web_info =
            ⟨some (reviewCore company country ⟨c, ir.confidence, ir.sources, ir.explanation⟩
                web_info).count,
             (reviewCore company country ⟨c, ir.confidence, ir.sources, ir.explanation⟩
                web_info).confidence,
             (reviewCore company country ⟨c, ir.confidence, ir.sources, ir.explanation⟩
                web_info).sources,
             pyStrip (reviewCore company country ⟨c, ir.confidence, ir.sources, ir.explanation⟩
                web_info).explanation,
             wasAdjusted (reviewCore company country ⟨c, ir.confidence, ir.sources, ir.explanation⟩
                web_info).sources⟩ := by
          simp [review_employee_count, hec, h0, hmy]
        have hcne : (reviewCore company country ⟨c, ir.confidence, ir.sources, ir.explanation⟩
            web_info).count ≠ c := by
          intro heq
          apply h
          rw [hrev, hec, heq]
        obtain ⟨hlen, m, hm, hmem⟩ := hOK.2 hcne
        refine ⟨?_, ?_, ⟨m, hm, ?_⟩, ?_⟩
        · rw [hrev]
          exact hOK.1
        · rw [hrev]
          exact hlen
        · rw [hrev]
          exact hmem
        · rw [hrev]
          exact wasAdjusted_of_marker hmem hm
      · exfalso
        apply h
        simp [review_employee_count, hec, h0, hmy, unreviewed]

/-- C9 witness: reviewing (`google`, `Malaysia`, first-pass count 10) adjusts
the count to 300 and indeed appends the `ADJUSTED` marker. -/
theorem c9_reviewer_appends_marker_witness :
    (review_employee_count "google" "Malaysia" ⟨some 10, "HIGH", [], ""⟩ "").employee_count ≠
      (⟨some 10, "HIGH", [], ""⟩ : InitResult).employee_count ∧
    (review_employee_count "google" "Malaysia" ⟨some 10, "HIGH", [], ""⟩ "").was_adjusted = true :=
  ⟨by decide,
    (c9_reviewer_appends_marker "google" "Malaysia" ⟨some 10, "HIGH", [], ""⟩ "" (by decide)).2.2.2⟩
